import Mathlib

/-!
Shallow embedding of the mcutk build-orchestration core: the build result
model, the MCUXpresso exit-code classifier, target resolution, the SDK
manifest resolver, the build decorator, the Eclipse cproject parser and the
project-discovery helpers, together with theorems checking the design
specification against this embedding.
-/

/-! ## Python string primitives used by the embedded code -/

/-- Whitespace as recognized by Python str.strip and str.split
(space, tab, newline, carriage return, vertical tab, form feed). -/
def pyIsSpace (c : Char) : Bool :=
  c = ' ' || c = '\t' || c = '\n' || c = '\r' || c = '\x0b' || c = '\x0c'

/-- Python str.strip with no argument: drop leading and trailing whitespace. -/
def pyStrip (s : String) : String :=
  ((s.data.dropWhile pyIsSpace).reverse.dropWhile pyIsSpace).reverse.asString

/-- Python str.split with no argument: split on whitespace runs, dropping
empty pieces. -/
def pySplit (s : String) : List String :=
  ((s.data.splitOnP pyIsSpace).map List.asString).filter (fun p => p ≠ "")

/-- Python str.lower for the ASCII range used by the code. -/
def pyLower (s : String) : String :=
  (s.data.map Char.toLower).asString

/-- Helper for pyIn: scan the haystack for a position where the needle is a
list-prefix. -/
def pyInAux (needle : List Char) : List Char → Bool
  | [] => needle.isPrefixOf []
  | c :: hs => needle.isPrefixOf (c :: hs) || pyInAux needle hs

/-- Python substring containment test: needle in hay. -/
def pyIn (needle hay : String) : Bool :=
  pyInAux needle.data hay.data

/-- Python str.endswith: suffix test, expressed over the character lists so
that it evaluates by kernel reduction. -/
def pyEndsWith (s suffix_arg : String) : Bool :=
  List.isSuffixOf suffix_arg.data s.data

/-- Python dict lookup dict.get(k): first binding wins, none when absent. -/
def dictGet (d : List (String × String)) (k : String) : Option String :=
  (d.find? (fun p => p.1 = k)).map (fun p => p.2)

/-- Python dict assignment d[k] = v: update in place when the key exists,
append at the end otherwise. -/
def dictSet (d : List (String × String)) (k v : String) : List (String × String) :=
  if d.any (fun p => p.1 = k) then
    d.map (fun p => if p.1 = k then (k, v) else p)
  else
    d ++ [(k, v)]

/-- The os.path.join of two components on a posix filesystem: an absolute
second component replaces the first. -/
def pyJoin (a b : String) : String :=
  if b.data.head? = some '/' then b
  else if a = "" then b
  else if a.data.getLast? = some '/' then a ++ b
  else a ++ "/" ++ b

/-! ## compilers/result.py -/

/-- The Result enum of compilers/result.py (the duplicate ERRORS and
WARNINGS aliases denote the same values as Errors and Warnings). -/
inductive Result
  | PASSED
  | Errors
  | Warnings
  | OtherErrors
  | Timeout
  deriving DecidableEq, Repr

/-- BuildResult of compilers/result.py: a result kind plus an output
artifact path, none until set. -/
structure BuildResult where
  result : Result
  output : Option String
  deriving DecidableEq, Repr

/-- BuildResult.map of compilers/result.py: classify a textual status,
case-insensitively, into a Result kind. -/
def BuildResult.map (result : String) (output : Option String) : BuildResult :=
  let value := pyLower result
  let ret :=
    if value = "pass" ∨ value = "success" ∨ value = "true" ∨ value = "noerror" then
      Result.PASSED
    else if value = "warnings" ∨ value = "warning" then
      Result.Warnings
    else if value = "errors" ∨ value = "error" then
      Result.Errors
    else if value = "timeout" then
      Result.Timeout
    else
      Result.OtherErrors
  ⟨ret, output⟩

/-! ## compilers/mcux/compiler.py -/

namespace Mcux

/-- The EXITCODE table of the MCUXpresso Compiler class; dict.get returns
none for unknown codes, and the caller substitutes the "Errors" default. -/
def EXITCODE (e : Int) : Option String :=
  if e = 0 then some "PASS"
  else if e = 1 then some "Compiler Error"
  else if e = 2 then some "Internal Errors"
  else if e = 3 then some "Errors"
  else if e = 4 then some "Warnings"
  else none

/-- The literal phrase searched for by Compiler.parse_build_result; every
metacharacter of its regular expression is escaped, so a regex search is
exactly substring containment of this text. -/
def buildFinishedPhrase : String := "Build Finished. 0 errors, 0 warnings."

/-- Compiler.parse_build_result of compilers/mcux/compiler.py. The
filesystem is modelled by fs_read, which returns the content of a path
when the file exists and none otherwise; the logfile argument is none when
the caller passed no log file, and the empty string is falsy in Python so
it disables the inspection as well. -/
def parse_build_result (exitcode : Int) (logfile : Option String)
    (fs_read : String → Option String) : BuildResult :=
  let status := (EXITCODE exitcode).getD "Errors"
  match logfile with
  | some lf =>
    if exitcode = 4 ∧ lf ≠ "" then
      match fs_read lf with
      | some content =>
        if pyIn buildFinishedPhrase content then BuildResult.map "PASS" none
        else BuildResult.map status none
      | none => BuildResult.map status none
    else BuildResult.map status none
  | none => BuildResult.map status none

end Mcux

/-! ## compilers/projectbase.py: map_target -/

/-- Data carried by the InvalidTarget exception raised by map_target: the
message names the stripped input, the project path and the list of valid
targets. -/
structure InvalidTarget where
  input_target : String
  prjpath : String
  valid_targets : List String
  deriving DecidableEq, Repr

/-- The first-pass condition of map_target: exact match against a target
name or membership among its whitespace-delimited components. -/
def matchFirstPass (input_target tname : String) : Bool :=
  input_target = tname || (pySplit tname).contains input_target

/-- The second-pass condition of map_target: case-insensitive substring
containment. -/
def matchSecondPass (input_target tname : String) : Bool :=
  pyIn (pyLower input_target) (pyLower tname)

/-- ProjectBase.map_target of compilers/projectbase.py: strip the input,
return the first target matching exactly or as a whitespace component, else
the first target containing the input case-insensitively, else raise
InvalidTarget. -/
def map_target (targets : List String) (prjpath : String) (input_target0 : String) :
    Except InvalidTarget String :=
  let input_target := pyStrip input_target0
  match targets.find? (fun tname => matchFirstPass input_target tname) with
  | some tname => Except.ok tname
  | none =>
    match targets.find? (fun tname => matchSecondPass input_target tname) with
    | some tname => Except.ok tname
    | none => Except.error ⟨input_target, prjpath, targets⟩

/-! ## sdk_manifest.py -/

/-- An example element of the manifest document: its attributes in the
boards/board/examples section. The toolchain attribute is the
space-separated toolchain list, empty when absent; linked_projects is the
optional back-reference; example_xml is the mask attribute of the
external files reference used by the info dictionaries. -/
structure ExampleNode where
  id : String
  name : String
  path : String
  category : String
  toolchain : String
  linked_projects : Option String
  example_xml : String
  deriving DecidableEq, Repr

/-- The dictionary produced by SDKManifest._get_example_info: the example
attributes together with the external definition file name. -/
structure ExampleInfo where
  id : String
  name : String
  path : String
  category : String
  toolchain : String
  linked_projects : Option String
  example_xml : String
  deriving DecidableEq, Repr

/-- The SDK manifest document: its format_version root attribute, board
ids, slave core name (none when no device core declares slave_roles, and
the empty string models an empty name attribute), and the example nodes in
document order. -/
structure SDKManifest where
  format_version : String
  boards : List String
  slave_core : Option String
  examples : List ExampleNode
  deriving DecidableEq, Repr

/-- SDKManifest._find_example_node for the id key, together with the
document position stamped into the _index_ attribute by
_get_linked_projects: the first example node bearing the requested id. -/
def find_example_node (m : SDKManifest) (example_id : String) :
    Option (Nat × ExampleNode) :=
  m.examples.enum.find? (fun p => p.2.id = example_id)

/-- SDKManifest._get_example_info: convert a node to its info record. -/
def get_example_info (n : ExampleNode) : ExampleInfo :=
  ⟨n.id, n.name, n.path, n.category, n.toolchain, n.linked_projects, n.example_xml⟩

/-- SDKManifest.find_example: locate an example info record by id. -/
def find_example (m : SDKManifest) (example_id : String) : Option ExampleInfo :=
  (find_example_node m example_id).map (fun p => get_example_info p.2)

/-- SDKManifest._get_linked_projects: follow the linked_projects
back-references, prepending each visited node (with its document index) and
stopping on a missing id, an already-visited node, or a falsy link. The
fuel argument bounds the recursion; the Python recursion visits each node
at most once, so examples.length + 1 fuel is always enough. -/
def get_linked_projects (m : SDKManifest) :
    Nat → String → List (Nat × ExampleNode) → List (Nat × ExampleNode)
  | 0, _, results => results
  | fuel + 1, example_id, results =>
    match find_example_node m example_id with
    | none => results
    | some node =>
      if node ∈ results then results
      else
        let results1 := node :: results
        match node.2.linked_projects with
        | none => results1
        | some linked_id =>
          if linked_id = "" then results1
          else get_linked_projects m fuel linked_id results1

/-- The in-place swap of the first element with the element at index i
performed by find_linked_projects on its node list. -/
def swap01 (l : List (Nat × ExampleNode)) (i : Nat) : List (Nat × ExampleNode) :=
  match l[0]?, l[i]? with
  | some a, some b => (l.set 0 b).set i a
  | _, _ => l

/-- The chain of linked example nodes in document order: the result of
_get_linked_projects sorted by the stamped _index_ attribute (Python
sorted is stable and ascending, as is List.mergeSort). -/
def linked_chain (m : SDKManifest) (example_id : String) : List (Nat × ExampleNode) :=
  (get_linked_projects m (m.examples.length + 1) example_id []).mergeSort
    (fun a b => a.1 ≤ b.1)

/-- SDKManifest.find_linked_projects: the sorted chain, reordered so that
the first node whose id ends with the declared slave core name is swapped
to the front (index 0 when no node matches, hence no swap), converted to
info records. A falsy slave core (none or empty) disables the reorder. -/
def find_linked_projects (m : SDKManifest) (example_id : String) : List ExampleInfo :=
  let nodes := linked_chain m example_id
  let nodes : List (Nat × ExampleNode) :=
    match m.slave_core with
    | none => nodes
    | some slave =>
      if slave = "" then nodes
      else
        let slave_prj_idx := (nodes.findIdx? (fun p => pyEndsWith p.2.id slave)).getD 0
        if slave_prj_idx ≠ 0 then swap01 nodes slave_prj_idx else nodes
  nodes.map (fun p => get_example_info p.2)

/-- The numeric value of a digit run, as int reads a version component. -/
def digitsToNat (l : List Char) : Nat :=
  l.foldl (fun n c => n * 10 + (c.toNat - 48)) 0

/-- The release components of a version string as parsed by
packaging.version for the plain dotted numeric versions used in manifest
format_version attributes. -/
def version_parse (s : String) : List Nat :=
  (s.data.splitOnP (fun c => c = '.')).map digitsToNat

/-- Trailing zero components are insignificant in packaging.version
comparisons, which zero-pad the shorter release tuple. -/
def stripZeros (l : List Nat) : List Nat :=
  (l.reverse.dropWhile (fun n => n = 0)).reverse

/-- The comparison key of a manifest format version: packaging.version
ordering of release tuples coincides with lexicographic ordering of the
zero-stripped component lists. -/
def verKey (s : String) : List Nat :=
  stripZeros (version_parse s)

/-- The sort key comparison used by SDKManifest.find_max_version. -/
def manifest_le (a b : SDKManifest) : Bool :=
  decide (verKey a.format_version ≤ verKey b.format_version)

/-- SDKManifest.find_max_version on an already-discovered manifest list:
none when empty, otherwise the last element of the stable ascending sort
by parsed format version (Python sorted(...)[-1]). -/
def find_max_version (manifests : List SDKManifest) : Option SDKManifest :=
  if manifests.isEmpty then none
  else (manifests.mergeSort manifest_le).getLast?

/-! ## compilers/mcux/project.py -/

namespace McuxPrj

/-- The two exception classes construction of a package project can raise. -/
inductive PrjError
  | projectNotFound (msg : String)
  | projectParserError (msg : String)
  deriving DecidableEq, Repr

/-- Project.is_enabled of compilers/mcux/project.py: an eclipse project is
always enabled; a package project is enabled when its example is present in
the manifest and either the manifest format version is 3.1 or the string
mcux occurs in the toolchain attribute (a Python substring test on the
space-separated list). -/
def is_enabled (is_package : Bool) (m : SDKManifest) (example_id : String) : Bool :=
  if !is_package then true
  else
    match find_example m example_id with
    | none => false
    | some example_info =>
      if m.format_version = "3.1" then true
      else pyIn "mcux" example_info.toolchain

/-- The package definition file as seen by Project._load_from_sdk_package:
whether ET.parse succeeded, whether an example node is present, and the id
attribute of that node (none when absent, and the empty string is falsy).
The name fallback and the nature lookup of the source are omitted here
because they can neither raise nor influence enablement or manifest
resolution. -/
structure PackageXmlData where
  parse_ok : Bool
  has_example_node : Bool
  example_id : Option String
  deriving DecidableEq, Repr

/-- Project._load_from_sdk_package: raise ProjectNotFound on a parse error
or a missing example node, ProjectParserError on a falsy id, and return the
example id paired with the manifest, preferring a pre-supplied manifest
(the SDK_MANIFEST class attribute or constructor argument) over the result
of SDKManifest.find_from_parents, raising ProjectParserError when neither
exists. -/
def load_from_sdk_package (x : PackageXmlData)
    (presupplied parents : Option SDKManifest) :
    Except PrjError (String × SDKManifest) :=
  if !x.parse_ok then Except.error (PrjError.projectNotFound "parse xml error")
  else if !x.has_example_node then
    Except.error (PrjError.projectNotFound "Unable to find example node.")
  else
    match x.example_id with
    | none => Except.error (PrjError.projectParserError "None id in example node!")
    | some eid =>
      if eid = "" then Except.error (PrjError.projectParserError "None id in example node!")
      else
        match presupplied with
        | some m => Except.ok (eid, m)
        | none =>
          match parents with
          | some m => Except.ok (eid, m)
          | none => Except.error (PrjError.projectParserError "Unable to find SDK Manifest!")

/-- The construction flow of Project.__init__ for a vendor package project
(a project file that is neither .project nor .cproject): load from the
package definition, then raise ProjectNotFound when a manifest was found
but the example is not enabled for this toolchain. -/
def project_init_package (x : PackageXmlData)
    (presupplied parents : Option SDKManifest) :
    Except PrjError (String × SDKManifest) :=
  match load_from_sdk_package x presupplied parents with
  | Except.error e => Except.error e
  | Except.ok (eid, m) =>
    if !(is_enabled true m eid) then
      Except.error (PrjError.projectNotFound "Not enabled in SDK Manifest")
    else Except.ok (eid, m)

end McuxPrj

/-! ## util.py and compilers/decorators.py -/

/-- The observable outcome of the child process spawned by run_command: its
exit code, its console output, and whether the timeout timer fired. -/
structure ProcOutcome where
  returncode : Int
  console : String
  timed_out : Bool
  deriving DecidableEq, Repr

/-- The exceptions the build decorator can surface: the ProcessTimeout of
util.py, and the TypeError Python raises when os.path.join receives the
none produced by a missing targetsinfo entry. -/
inductive BuildExc
  | processTimeout
  | typeErrorJoinNone
  deriving DecidableEq, Repr

/-- util.run_command: when the timer fired and need_raise is set, raise
ProcessTimeout from the finally block; otherwise return the exit code and
the captured output (the partial result when the timer fired without
need_raise). -/
def run_command (proc : ProcOutcome) (need_raise : Bool) :
    Except BuildExc (Int × String) :=
  if proc.timed_out && need_raise then Except.error BuildExc.processTimeout
  else Except.ok (proc.returncode, proc.console)

/-- The filesystem as observed by the build decorator: the isfile and
exists predicates of os.path, and the glob.glob match list for a pattern. -/
structure FS where
  isfile : String → Bool
  path_exists : String → Bool
  glob : String → List String

/-- The workspace resolution at the top of the build decorator: a falsy
workspace option is replaced by the per-toolchain default directory. -/
def resolve_workspace (tc_name default_workspace : String)
    (workspace_arg : Option String) : String :=
  match workspace_arg with
  | some w => if w = "" then default_workspace ++ "/" ++ tc_name else w
  | none => default_workspace ++ "/" ++ tc_name

/-- The output base directory chosen by the build decorator: under the
workspace when the toolchain name occurs in the string mcux (the source
tests membership in a parenthesised string, not a tuple, hence substring
containment) and the workspace is truthy, under the project root
otherwise. -/
def resolve_output_abs (tc_name workspace prjdir out : String) : String :=
  if pyIn tc_name "mcux" && !(workspace == "") then pyJoin workspace out
  else pyJoin prjdir out

/-- The priority-ordered artifact extension list of the build decorator. -/
def valid_extension : List String :=
  [".axf", ".elf", ".out", ".hex", ".bin", ".lib", ".a"]

/-- The build decorator of compilers/decorators.py. parse_result stands
for the toolchain parse_build_result applied to the fixed logfile, and the
returned list collects the warning messages logged on the way. The
decorator always calls run_command with need_raise set. -/
def build (tc_name default_workspace : String)
    (parse_result : Int → BuildResult)
    (targetsinfo : List (String × String)) (target : String)
    (prjdir : String) (workspace_arg : Option String)
    (proc : ProcOutcome) (fs : FS) :
    Except BuildExc (BuildResult × List String) :=
  let workspace := resolve_workspace tc_name default_workspace workspace_arg
  match run_command proc true with
  | Except.error e => Except.error e
  | Except.ok (returncode, _) =>
    let br0 := parse_result returncode
    let output := dictGet targetsinfo target
    let br : BuildResult := ⟨br0.result, output⟩
    if br.result ≠ Result.PASSED ∧ br.result ≠ Result.Warnings then
      Except.ok (br, [])
    else
      match output with
      | none => Except.error BuildExc.typeErrorJoinNone
      | some out =>
        let output_abs := resolve_output_abs tc_name workspace prjdir out
        if fs.isfile output_abs then
          Except.ok (⟨br.result, some output_abs⟩, [])
        else if !(fs.path_exists output_abs) then
          Except.ok (br, ["output is not exists: [" ++ output_abs ++ "]"])
        else
          match valid_extension.findSome?
              (fun ext => (fs.glob (output_abs ++ "/*" ++ ext)).head?) with
          | some file_path => Except.ok (⟨br.result, some file_path⟩, [])
          | none => Except.ok (br, ["unable to find output: [" ++ output_abs ++ "]"])

/-! ## compilers/eclipse.py -/

namespace Eclipse

/-- A configuration element of a .cproject document as consumed by
Project.parse_cproject: the buildArtefactType attribute (the xpath keeps
only elements that carry it), the name, artifactExtension and artifactName
attributes, and the buildPath attribute of the first nested builder
element carrying one (none when there is no such builder). -/
structure ConfigurationNode where
  buildArtefactType : Option String
  name : String
  artifactExtension : Option String
  artifactName : String
  builder_buildPath : Option String
  deriving DecidableEq, Repr

/-- The end position of the variable-reference portion matched by the
anchored greedy pattern of parse_cproject: the string must begin with a
dollar-brace opener, and the match extends to the last close-brace-slash
pair that is not preceded by a newline inside the matched span (the dot of
the pattern does not match newlines). Returns the index of that pair. -/
def varPrefixEnd (l : List Char) : Option Nat :=
  if List.isPrefixOf ['$', '\x7b'] l then
    ((List.range l.length).filter (fun i =>
        decide (2 ≤ i) &&
        List.isPrefixOf ['\x7d', '/'] (l.drop i) &&
        !(((l.drop 2).take (i - 2)).contains '\n'))).max?
  else none

/-- The substitution re.sub of the anchored variable-reference pattern with
the empty string: strip the matched span when it exists. -/
def subVarPattern (s : String) : String :=
  match varPrefixEnd s.data with
  | some i => (s.data.drop (i + 2)).asString
  | none => s

/-- The project-name placeholder literal compared against artifactName. -/
def projNamePlaceholder : String := "$\x7bProjName\x7d"

/-- The relative output path derived by parse_cproject for one
configuration element, given the display name taken from the .project
document. -/
def config_output (project_name : String) (per_node : ConfigurationNode) : String :=
  let target_name := pyStrip per_node.name
  let extension := pyStrip (per_node.artifactExtension.getD "")
  let artifact_name0 := pyStrip per_node.artifactName
  let artifact_name :=
    if artifact_name0 = projNamePlaceholder then project_name else artifact_name0
  let output_name := artifact_name ++ "." ++ extension
  let output_dir :=
    match per_node.builder_buildPath with
    | some buildPath => subVarPattern buildPath
    | none => target_name
  output_dir ++ "/" ++ output_name

/-- Project.parse_cproject of compilers/eclipse.py: iterate the
configuration elements that carry a buildArtefactType attribute, in
document order, and fill the targets dictionary with the derived relative
output path per stripped configuration name. -/
def parse_cproject (project_name : String) (nodes : List ConfigurationNode) :
    List (String × String) :=
  (nodes.filter (fun n => n.buildArtefactType.isSome)).foldl
    (fun targets per_node =>
      dictSet targets (pyStrip per_node.name) (config_output project_name per_node))
    []

/-- Project.parse_project of compilers/eclipse.py: the stripped text of the
name element of the .project document. -/
def parse_project (name_text : String) : String :=
  pyStrip name_text

/-- Project.parse of compilers/eclipse.py: the display name from the
.project document, then the targets dictionary from the .cproject
configurations; the targets list is the key view of that dictionary. -/
def parse (name_text : String) (nodes : List ConfigurationNode) :
    String × List (String × String) :=
  let name := parse_project name_text
  (name, parse_cproject name nodes)

end Eclipse

/-! ## compilers/projectbase.py: discovery and board-name derivation -/

/-- A word character of the regular expression used to derive the board
name, for the ASCII paths handled by the tool. -/
def isWordChar (c : Char) : Bool :=
  c.isAlphanum || c = '_'

/-- The literal middle section of the board-name pattern. -/
def boardsPattern : List Char := "/boards/".data

/-- One attempt of the board-name regular expression at the start of the
text: a maximal nonempty word-character run, the literal boards section,
then a nonempty captured word-character run; backtracking into a shorter
first run can never succeed because the following character would still be
a word character, so maximal munch is faithful. Returns the captured group
and the remainder after the match. -/
def tryMatchBoards (l : List Char) : Option (String × List Char) :=
  let run := l.takeWhile isWordChar
  if run.isEmpty then none
  else
    let rest := l.drop run.length
    if List.isPrefixOf boardsPattern rest then
      let cap := (rest.drop 8).takeWhile isWordChar
      if cap.isEmpty then none
      else some (cap.asString, (rest.drop 8).drop cap.length)
    else none

/-- The scan loop of re.findall for the board-name pattern: try a match at
the current position, emit its captured group and resume after the match,
or advance one character. The fuel argument bounds the recursion; the
text length is always enough because every step consumes at least one
character. -/
def findBoardsAux : Nat → List Char → List String
  | 0, _ => []
  | fuel + 1, l =>
    match tryMatchBoards l with
    | some (cap, rest) => cap :: findBoardsAux fuel rest
    | none =>
      match l with
      | [] => []
      | _ :: t => findBoardsAux fuel t

/-- re.findall of the board-name pattern over a whole string. -/
def findallBoards (s : String) : List String :=
  findBoardsAux s.data.length s.data

/-- The backslash normalization applied to the project path before the
board-name search. -/
def normSlashes (s : String) : String :=
  (s.data.map (fun c => if c = '\\' then '/' else c)).asString

/-- A project instance as produced by ProjectBase._get_instance: the
project path and the derived board name. -/
structure ProjInstance where
  prjpath : String
  boardname : String
  deriving DecidableEq, Repr

/-- The exceptions observable during discovery: the IndexError of the
board-name lookup, the ProjectNotFound raised by a constructor, and any
other constructor failure. -/
inductive PyExc
  | indexError
  | projectNotFoundExc
  | otherExc
  deriving DecidableEq, Repr

/-- ProjectBase._get_instance: when the file path matches the glob pattern
set, run the constructor (ctor_fails models the exception it raises, if
any), then set boardname to the last captured group of the board-name
pattern; the trailing index lookup raises IndexError when there is no
match. A non-matching path yields no instance. -/
def get_instance (ctor_fails : Option PyExc) (matches_glob : Bool)
    (filepath : String) : Except PyExc (Option ProjInstance) :=
  if matches_glob then
    match ctor_fails with
    | some e => Except.error e
    | none =>
      match (findallBoards (normSlashes filepath)).getLast? with
      | some b => Except.ok (some ⟨filepath, b⟩)
      | none => Except.error PyExc.indexError
  else Except.ok none

/-- A discovery candidate: a file path, whether it matches the parser glob
pattern set, and the exception its constructor would raise, if any. -/
structure Candidate where
  path : String
  matches_glob : Bool
  ctor_fails : Option PyExc
  deriving Repr

/-- The single-file branch of ProjectBase.fromdir: only ProjectNotFound is
swallowed there; every other exception, the IndexError of the board-name
lookup included, propagates to the caller. -/
def fromdir_single (c : Candidate) : Except PyExc (List ProjInstance) :=
  match get_instance c.ctor_fails c.matches_glob c.path with
  | Except.ok (some ins) => Except.ok [ins]
  | Except.ok none => Except.ok []
  | Except.error PyExc.projectNotFoundExc => Except.ok []
  | Except.error e => Except.error e

/-- The directory branch of ProjectBase.fromdir: the bare except swallows
every exception per candidate, so a failing candidate contributes
nothing. -/
def fromdir_scan (cs : List Candidate) : List ProjInstance :=
  cs.foldl
    (fun prjs c =>
      match get_instance c.ctor_fails c.matches_glob c.path with
      | Except.ok (some ins) => prjs ++ [ins]
      | _ => prjs)
    []

/-! ## Claim C1 -/

/-- C1: for a build whose exit code maps to Warnings (exit code 4), when the
designated log file exists and its content contains the exact phrase of
buildFinishedPhrase, parse_build_result classifies the build as Passed; when
the content lacks the phrase, or the log file does not exist, or no log file
was designated, the classification stays Warnings. -/
theorem c1_warning_upgrade (lf content : String) (fs : String → Option String)
    (hlf : lf ≠ "") (hread : fs lf = some content) :
    (pyIn Mcux.buildFinishedPhrase content = true →
      Mcux.parse_build_result 4 (some lf) fs = ⟨Result.PASSED, none⟩) ∧
    (pyIn Mcux.buildFinishedPhrase content = false →
      Mcux.parse_build_result 4 (some lf) fs = ⟨Result.Warnings, none⟩) ∧
    (∀ fs2 : String → Option String, fs2 lf = none →
      Mcux.parse_build_result 4 (some lf) fs2 = ⟨Result.Warnings, none⟩) ∧
    (Mcux.parse_build_result 4 none fs = ⟨Result.Warnings, none⟩) := by
  refine ⟨fun hin => ?_, fun hnin => ?_, fun fs2 h2 => ?_, ?_⟩
  · simp [Mcux.parse_build_result, hread, hlf, hin]
    decide
  · simp [Mcux.parse_build_result, hread, hlf, hnin]
    decide
  · simp [Mcux.parse_build_result, h2, hlf]
    decide
  · simp [Mcux.parse_build_result]
    decide

/-- Witness for c1_warning_upgrade at a concrete log file and content. -/
theorem c1_warning_upgrade_witness :
    Mcux.parse_build_result 4 (some "build.log")
        (fun p => if p = "build.log"
          then some "12:00 Build Finished. 0 errors, 0 warnings. (took 4s)"
          else none)
      = ⟨Result.PASSED, none⟩ ∧
    Mcux.parse_build_result 4 (some "build.log") (fun _ => none)
      = ⟨Result.Warnings, none⟩ := by
  have h := c1_warning_upgrade "build.log"
    "12:00 Build Finished. 0 errors, 0 warnings. (took 4s)"
    (fun p => if p = "build.log"
      then some "12:00 Build Finished. 0 errors, 0 warnings. (took 4s)"
      else none)
    (by decide) (by simp)
  exact ⟨h.1 (by decide), h.2.2.1 (fun _ => none) rfl⟩

/-! ## Claim C2 -/

/-- C2 counterexample: map_target is not idempotent over the declared
target set. With declared targets "Debug Release" and "Release", the exact
name "Release" of the second target is a whitespace component of the first
target, so the first loop returns "Debug Release" instead. -/
theorem c2_counterexample :
    map_target ["Debug Release", "Release"] "hello_world.prj" "Release" =
      Except.ok "Debug Release" ∧
    ("Debug Release" : String) ≠ "Release" := by
  constructor
  · rfl
  · decide

/-- C2 (amended): map_target strips its input and tries an exact match
against each target name or its whitespace components, then falls back to
case-insensitive substring containment, and an input matching neither way
yields an InvalidTarget error carrying the attempted value and the list of
valid targets. Calling it with a declared target name returns that very
name provided the name carries no surrounding whitespace and no earlier
declared target captures it first as an exact or whitespace-component
match. -/
theorem c2_map_target_resolution (targets : List String) (prjpath input_target : String) :
    (∀ pre t post, targets = pre ++ t :: post → pyStrip t = t →
      (∀ t2 ∈ pre, matchFirstPass t t2 = false) →
      map_target targets prjpath t = Except.ok t) ∧
    ((∀ t ∈ targets, matchFirstPass (pyStrip input_target) t = false) →
      (∀ t ∈ targets, matchSecondPass (pyStrip input_target) t = false) →
      map_target targets prjpath input_target =
        Except.error ⟨pyStrip input_target, prjpath, targets⟩) ∧
    ((∃ t ∈ targets, matchFirstPass (pyStrip input_target) t = true) →
      ∃ t ∈ targets, map_target targets prjpath input_target = Except.ok t ∧
        matchFirstPass (pyStrip input_target) t = true) ∧
    ((∀ t ∈ targets, matchFirstPass (pyStrip input_target) t = false) →
      (∃ t ∈ targets, matchSecondPass (pyStrip input_target) t = true) →
      ∃ t ∈ targets, map_target targets prjpath input_target = Except.ok t ∧
        matchSecondPass (pyStrip input_target) t = true) := by
  refine ⟨?_, ?_, ?_, ?_⟩
  · rintro pre t post rfl hstrip hpre
    have hfind : (pre ++ t :: post).find? (fun tname => matchFirstPass (pyStrip t) tname)
        = some t := by
      rw [hstrip, List.find?_append]
      have h1 : pre.find? (fun tname => matchFirstPass t tname) = none :=
        List.find?_eq_none.mpr (fun x hx => by simp [hpre x hx])
      have h2 : (t :: post).find? (fun tname => matchFirstPass t tname) = some t := by
        simp [List.find?_cons, matchFirstPass]
      simp [h1, h2]
    simp [map_target, hfind]
  · intro hfp hsp
    have h1 : targets.find? (fun tname => matchFirstPass (pyStrip input_target) tname)
        = none := List.find?_eq_none.mpr (fun x hx => by simp [hfp x hx])
    have h2 : targets.find? (fun tname => matchSecondPass (pyStrip input_target) tname)
        = none := List.find?_eq_none.mpr (fun x hx => by simp [hsp x hx])
    simp [map_target, h1, h2]
  · intro hex
    have hsome : (targets.find? (fun tname => matchFirstPass (pyStrip input_target) tname)).isSome :=
      List.find?_isSome.mpr (by simpa using hex)
    obtain ⟨t, ht⟩ := Option.isSome_iff_exists.mp hsome
    exact ⟨t, List.mem_of_find?_eq_some ht, by simp [map_target, ht],
      List.find?_some ht⟩
  · intro hfp hex
    have h1 : targets.find? (fun tname => matchFirstPass (pyStrip input_target) tname)
        = none := List.find?_eq_none.mpr (fun x hx => by simp [hfp x hx])
    have hsome : (targets.find? (fun tname => matchSecondPass (pyStrip input_target) tname)).isSome :=
      List.find?_isSome.mpr (by simpa using hex)
    obtain ⟨t, ht⟩ := Option.isSome_iff_exists.mp hsome
    exact ⟨t, List.mem_of_find?_eq_some ht, by simp [map_target, h1, ht],
      List.find?_some ht⟩

/-- Witness for c2_map_target_resolution: the qualified idempotence
conjunct at the declared target set Debug, Release with input Release, and
the invalid-target conjunct at input FLASH. -/
theorem c2_map_target_resolution_witness :
    map_target ["Debug", "Release"] "hello_world.prj" "Release" = Except.ok "Release" ∧
    map_target ["Debug", "Release"] "hello_world.prj" "FLASH" =
      Except.error ⟨"FLASH", "hello_world.prj", ["Debug", "Release"]⟩ := by
  have h := c2_map_target_resolution ["Debug", "Release"] "hello_world.prj" "FLASH"
  have h2 := c2_map_target_resolution ["Debug", "Release"] "hello_world.prj" "Release"
  exact ⟨h2.1 ["Debug"] "Release" [] rfl (by decide) (by decide),
    h.2.1 (by decide) (by decide)⟩

/-! ## Claim C3 -/

/-- The element at the index returned by findIdx? satisfies the predicate. -/
theorem findIdx?_getElem? {α : Type} (p : α → Bool) (l : List α) (i : Nat)
    (h : l.findIdx? p = some i) : ∃ x, l[i]? = some x ∧ p x = true := by
  obtain ⟨hlt, hp, -⟩ := List.findIdx?_eq_some_iff_getElem.mp h
  exact ⟨l[i], by simp [List.getElem?_eq_getElem hlt], hp⟩

/-- The head of the swap performed by find_linked_projects is the element
that was at the swapped-in index. -/
theorem swap01_head (l : List (Nat × ExampleNode)) (i : Nat) (x : Nat × ExampleNode)
    (hi : l[i]? = some x) (hne : i ≠ 0) : (swap01 l i).head? = some x := by
  have hlt : i < l.length := by
    by_contra hge
    rw [List.getElem?_eq_none (Nat.le_of_not_lt hge)] at hi
    exact Option.noConfusion hi
  have h0 : 0 < l.length := Nat.lt_of_le_of_lt (Nat.zero_le i) hlt
  have ha : l[0]? = some l[0] := List.getElem?_eq_getElem h0
  unfold swap01
  rw [ha, hi]
  rw [List.head?_eq_getElem?]
  rw [List.getElem?_set_ne (Ne.symm (fun h => hne h.symm))]
  exact List.getElem?_set_self (by simpa using h0)

/-- C3: whenever the manifest declares a (truthy) slave core name and the
sorted linked-projects chain contains a record whose id ends with that
name, find_linked_projects places such a slave record first, regardless of
the document order of the chained records. -/
theorem c3_slave_core_first (m : SDKManifest) (example_id slave : String)
    (hslave : m.slave_core = some slave) (hne : slave ≠ "")
    (hex : ∃ p ∈ linked_chain m example_id, pyEndsWith p.2.id slave = true) :
    ∃ info : ExampleInfo,
      (find_linked_projects m example_id).head? = some info ∧
      pyEndsWith info.id slave = true := by
  have hfs : (((linked_chain m example_id)).findIdx?
      (fun p => pyEndsWith p.2.id slave)).isSome := by
    rw [List.findIdx?_isSome, List.any_eq_true]
    obtain ⟨p, hp, hps⟩ := hex
    exact ⟨p, hp, hps⟩
  obtain ⟨i, hi⟩ := Option.isSome_iff_exists.mp hfs
  obtain ⟨x, hx, hpx⟩ := findIdx?_getElem? _ _ i hi
  refine ⟨get_example_info x.2, ?_, hpx⟩
  simp only [find_linked_projects, hslave, hne, if_false, hi, Option.getD_some]
  by_cases h0 : i = 0
  · subst h0
    simp only [ne_eq, not_true_eq_false, if_false, ite_false, reduceIte]
    rw [List.head?_map, List.head?_eq_getElem?, hx]
    rfl
  · simp only [ne_eq, h0, not_false_eq_true, if_true, ite_true, reduceIte]
    rw [List.head?_map, swap01_head _ i x hx h0]
    rfl

/-- A two-core example pair whose manifest lists the primary project first
in document order: the primary record of the witness manifest. -/
def exPrimary : ExampleNode :=
  ⟨"evkmimxrt1170_hello_world_cm7", "hello_world_cm7",
   "boards/evkmimxrt1170/demo_apps/hello_world/cm7", "demo_apps",
   "mcux armgcc", some "evkmimxrt1170_hello_world_cm4", "hello_world_cm7.xml"⟩

/-- The slave record of the witness manifest, listed second in document
order. -/
def exSlave : ExampleNode :=
  ⟨"evkmimxrt1170_hello_world_cm4", "hello_world_cm4",
   "boards/evkmimxrt1170/demo_apps/hello_world/cm4", "demo_apps",
   "mcux armgcc", none, "hello_world_cm4.xml"⟩

/-- A manifest declaring the cm4 slave core and listing the primary
example before the slave example. -/
def mfMulticore : SDKManifest :=
  ⟨"3.8", ["evkmimxrt1170"], some "cm4", [exPrimary, exSlave]⟩

/-- Witness for c3_slave_core_first: the primary project comes first in
document order, yet the slave record heads the result. -/
theorem c3_slave_core_first_witness :
    ∃ info : ExampleInfo,
      (find_linked_projects mfMulticore "evkmimxrt1170_hello_world_cm7").head?
        = some info ∧
      pyEndsWith info.id "cm4" = true :=
  c3_slave_core_first mfMulticore "evkmimxrt1170_hello_world_cm7" "cm4" rfl
    (by decide)
    ⟨(1, exSlave), ((List.mergeSort_perm _ _).mem_iff).mpr (by decide), by decide⟩

/-! ## Claim C9 -/

/-- The manifest sort key is transitive. -/
theorem manifest_le_trans (a b c : SDKManifest)
    (h1 : manifest_le a b = true) (h2 : manifest_le b c = true) :
    manifest_le a c = true := by
  simp only [manifest_le, decide_eq_true_eq] at h1 h2 ⊢
  exact le_trans h1 h2

/-- The manifest sort key is total. -/
theorem manifest_le_total (a b : SDKManifest) :
    (manifest_le a b || manifest_le b a) = true := by
  simp only [manifest_le, Bool.or_eq_true, decide_eq_true_eq]
  exact le_total _ _

/-- The last element of a pairwise-ordered list is above every element. -/
theorem getLast?_top_of_pairwise {α : Type} (R : α → α → Prop) :
    ∀ (l : List α) (m : α), l.Pairwise R → l.getLast? = some m →
      m ∈ l ∧ ∀ x ∈ l, x = m ∨ R x m
  | [], m, _, h => by simp at h
  | [a], m, _, h => by
    simp only [List.getLast?_singleton, Option.some.injEq] at h
    subst h
    exact ⟨List.mem_singleton_self a, by
      intro x hx
      rw [List.mem_singleton] at hx
      exact Or.inl hx⟩
  | a :: b :: t, m, hp, h => by
    rw [List.getLast?_cons_cons] at h
    obtain ⟨ha, hp2⟩ := List.pairwise_cons.mp hp
    obtain ⟨hmem, hall⟩ := getLast?_top_of_pairwise R (b :: t) m hp2 h
    refine ⟨List.mem_cons_of_mem a hmem, ?_⟩
    intro x hx
    rcases List.mem_cons.mp hx with rfl | hx2
    · exact Or.inr (ha m hmem)
    · exact hall x hx2

/-- Correctness of find_max_version on a nonempty manifest list: the result
exists, belongs to the list, and its parsed format version is maximal. -/
theorem find_max_version_spec (manifests : List SDKManifest) (hne : manifests ≠ []) :
    ∃ m, find_max_version manifests = some m ∧ m ∈ manifests ∧
      ∀ x ∈ manifests, verKey x.format_version ≤ verKey m.format_version := by
  have hbool : manifests.isEmpty = false := by
    rw [Bool.eq_false_iff]
    intro h
    exact hne (List.isEmpty_iff.mp h)
  have hperm : (manifests.mergeSort manifest_le).Perm manifests :=
    List.mergeSort_perm manifests manifest_le
  have hsne : manifests.mergeSort manifest_le ≠ [] := by
    intro h
    apply hne
    have hlen := hperm.length_eq
    rw [h] at hlen
    exact List.length_eq_zero.mp hlen.symm
  obtain ⟨m, hm⟩ : ∃ m, (manifests.mergeSort manifest_le).getLast? = some m := by
    cases h : (manifests.mergeSort manifest_le).getLast? with
    | none => exact absurd (List.getLast?_eq_none_iff.mp h) hsne
    | some m => exact ⟨m, rfl⟩
  have hpw : (manifests.mergeSort manifest_le).Pairwise
      (fun a b => manifest_le a b = true) := by
    simpa using List.sorted_mergeSort
      (fun a b c => manifest_le_trans a b c)
      (fun a b => manifest_le_total a b) manifests
  obtain ⟨hmem, hall⟩ := getLast?_top_of_pairwise _ _ m hpw hm
  refine ⟨m, ?_, hperm.mem_iff.mp hmem, fun x hx => ?_⟩
  · unfold find_max_version
    rw [hbool]
    simpa using hm
  · rcases hall x (hperm.mem_iff.mpr hx) with rfl | hle
    · exact le_refl _
    · simpa only [manifest_le, decide_eq_true_eq] using hle

/-- A manifest carrying format version 3.0. -/
def mf30 : SDKManifest := ⟨"3.0", ["evkboard"], none, []⟩

/-- A manifest carrying format version 3.1. -/
def mf31 : SDKManifest := ⟨"3.1", ["evkboard"], none, []⟩

/-- A manifest carrying format version 3.8. -/
def mf38 : SDKManifest := ⟨"3.8", ["evkboard"], none, []⟩

unseal List.merge List.mergeSort in
/-- C9 counterexample: the selection is not independent of discovery order
when two distinct manifests tie on format version. Python sorted is stable,
so the last-listed manifest of the maximal version is returned and swapping
the discovery order swaps the result. -/
theorem c9_counterexample :
    find_max_version [⟨"3.8", ["boardA"], none, []⟩, ⟨"3.8", ["boardB"], none, []⟩]
        = some ⟨"3.8", ["boardB"], none, []⟩ ∧
    find_max_version [⟨"3.8", ["boardB"], none, []⟩, ⟨"3.8", ["boardA"], none, []⟩]
        = some ⟨"3.8", ["boardA"], none, []⟩ ∧
    (⟨"3.8", ["boardA"], none, []⟩ : SDKManifest) ≠ ⟨"3.8", ["boardB"], none, []⟩ := by
  refine ⟨by decide, by decide, by decide⟩

/-- C9 (amended): find_max_version returns a manifest of maximal parsed
format version; the selection is independent of the discovery order
whenever the parsed format versions are pairwise distinct; and among
format versions 3.0, 3.1 and 3.8 it always selects the 3.8 manifest
regardless of order. -/
theorem c9_find_max_version (manifests : List SDKManifest) (hne : manifests ≠ []) :
    (∃ m, find_max_version manifests = some m ∧ m ∈ manifests ∧
      ∀ x ∈ manifests, verKey x.format_version ≤ verKey m.format_version) ∧
    (∀ ms2, manifests.Perm ms2 →
      manifests.Pairwise (fun a b => verKey a.format_version ≠ verKey b.format_version) →
      find_max_version manifests = find_max_version ms2) ∧
    (∀ ms3, ms3.Perm [mf30, mf31, mf38] → find_max_version ms3 = some mf38) := by
  refine ⟨find_max_version_spec manifests hne, ?_, ?_⟩
  · intro ms2 hperm hdist
    obtain ⟨m, hm, hmem, hmax⟩ := find_max_version_spec manifests hne
    have hne2 : ms2 ≠ [] := by
      intro h
      subst h
      exact hne hperm.eq_nil
    obtain ⟨m2, hm2, hmem2, hmax2⟩ := find_max_version_spec ms2 hne2
    have hmem2' : m2 ∈ manifests := hperm.mem_iff.mpr hmem2
    have hkey : verKey m.format_version = verKey m2.format_version :=
      le_antisymm (hmax2 m (hperm.mem_iff.mp hmem)) (hmax m2 hmem2')
    by_cases heq : m = m2
    · rw [hm, hm2, heq]
    · have hsymm : Symmetric (fun a b : SDKManifest =>
          verKey a.format_version ≠ verKey b.format_version) :=
        fun _ _ h => Ne.symm h
      exact absurd hkey (hdist.forall hsymm hmem hmem2' heq)
  · intro ms3 hperm3
    have hne3 : ms3 ≠ [] := by
      intro h
      subst h
      have := hperm3.length_eq
      simp at this
    obtain ⟨m, hm, hmem, hmax⟩ := find_max_version_spec ms3 hne3
    have hmem' : m ∈ [mf30, mf31, mf38] := hperm3.mem_iff.mp hmem
    have h38 : mf38 ∈ ms3 := hperm3.mem_iff.mpr (by simp)
    have hle := hmax mf38 h38
    simp only [List.mem_cons, List.not_mem_nil, or_false] at hmem'
    rcases hmem' with rfl | rfl | rfl
    · exact absurd hle (by decide)
    · exact absurd hle (by decide)
    · rw [hm]

/-- Witness for c9_find_max_version: the three-version scenario applied to
the reversed discovery order. -/
theorem c9_find_max_version_witness :
    find_max_version [mf38, mf31, mf30] = some mf38 := by
  have h := c9_find_max_version [mf38, mf31, mf30] (by decide)
  exact h.2.2 [mf38, mf31, mf30] (by decide)

/-! ## Claim C4 -/

/-- C4: when the child process exceeds the configured timeout, the build
decorator, which always calls run_command with need_raise set, surfaces the
dedicated process-timeout error and never returns a BuildResult, whatever
the toolchain, project data or filesystem state. -/
theorem c4_timeout_raises (tc_name default_workspace : String)
    (parse_result : Int → BuildResult) (targetsinfo : List (String × String))
    (target prjdir : String) (workspace_arg : Option String)
    (proc : ProcOutcome) (fs : FS) (hto : proc.timed_out = true) :
    build tc_name default_workspace parse_result targetsinfo target prjdir
        workspace_arg proc fs = Except.error BuildExc.processTimeout ∧
    run_command proc true = Except.error BuildExc.processTimeout := by
  have hrc : run_command proc true = Except.error BuildExc.processTimeout := by
    simp [run_command, hto]
  exact ⟨by simp [build, hrc], hrc⟩

/-- The empty filesystem used by the build decorator witnesses: no file
exists and every glob pattern matches nothing. -/
def fsNone : FS := ⟨fun _ => false, fun _ => false, fun _ => []⟩

/-- Witness for c4_timeout_raises at a concrete timed-out invocation. -/
theorem c4_timeout_raises_witness :
    build "mcux" "/home/user/mcutk_workspace" (fun _ => ⟨Result.PASSED, none⟩)
      [("Debug", "Debug/hello_world.axf")] "Debug" "/sdk/hello_world" none
      ⟨143, "", true⟩ fsNone = Except.error BuildExc.processTimeout :=
  (c4_timeout_raises "mcux" "/home/user/mcutk_workspace"
    (fun _ => ⟨Result.PASSED, none⟩) [("Debug", "Debug/hello_world.axf")]
    "Debug" "/sdk/hello_world" none ⟨143, "", true⟩ fsNone rfl).1

/-! ## Claim C7 -/

/-- C7 counterexample: on a non-passing result the decorator does return
immediately, but the artifact field of the returned BuildResult is not
absent: set_output ran before the classification check, so it holds the
declared relative output path of the target. -/
theorem c7_counterexample :
    build "mcux" "/home/user/mcutk_workspace"
        (fun rc => Mcux.parse_build_result rc (some "build.log") (fun _ => none))
        [("Debug", "Debug/hello_world.axf")] "Debug" "/sdk/hello_world" none
        ⟨3, "", false⟩ fsNone
      = Except.ok (⟨Result.Errors, some "Debug/hello_world.axf"⟩, []) ∧
    some "Debug/hello_world.axf" ≠ (none : Option String) := by
  constructor
  · rfl
  · decide

/-- C7 (amended): on a result classified neither Passed nor Warnings the
decorator returns the BuildResult immediately without attempting artifact
resolution (the outcome does not depend on the filesystem), and the
artifact field holds the declared relative output path looked up in
targetsinfo, set unconditionally before the classification check, rather
than a resolved artifact. -/
theorem c7_nonpassing_returns_without_resolution
    (tc_name default_workspace : String) (parse_result : Int → BuildResult)
    (targetsinfo : List (String × String)) (target prjdir : String)
    (workspace_arg : Option String) (proc : ProcOutcome) (fs fs2 : FS)
    (hto : proc.timed_out = false)
    (h1 : (parse_result proc.returncode).result ≠ Result.PASSED)
    (h2 : (parse_result proc.returncode).result ≠ Result.Warnings) :
    build tc_name default_workspace parse_result targetsinfo target prjdir
        workspace_arg proc fs
      = Except.ok (⟨(parse_result proc.returncode).result, dictGet targetsinfo target⟩, []) ∧
    build tc_name default_workspace parse_result targetsinfo target prjdir
        workspace_arg proc fs
      = build tc_name default_workspace parse_result targetsinfo target prjdir
          workspace_arg proc fs2 := by
  have hb : ∀ g : FS,
      build tc_name default_workspace parse_result targetsinfo target prjdir
          workspace_arg proc g
        = Except.ok (⟨(parse_result proc.returncode).result, dictGet targetsinfo target⟩, []) := by
    intro g
    simp only [build, run_command, hto, Bool.false_and, Bool.false_eq_true, if_false]
    rw [if_pos ⟨h1, h2⟩]
  exact ⟨hb fs, (hb fs).trans (hb fs2).symm⟩

/-- Witness for c7_nonpassing_returns_without_resolution at exit code 3
(Errors) with a declared Debug target. -/
theorem c7_nonpassing_witness :
    build "mcux" "/home/user/mcutk_workspace"
        (fun rc => Mcux.parse_build_result rc (some "build.log") (fun _ => none))
        [("Debug", "Debug/hello_world.axf")] "Debug" "/sdk/hello_world" none
        ⟨3, "", false⟩ fsNone
      = Except.ok
          (⟨(Mcux.parse_build_result 3 (some "build.log") (fun _ => none)).result,
            dictGet [("Debug", "Debug/hello_world.axf")] "Debug"⟩, []) :=
  (c7_nonpassing_returns_without_resolution "mcux" "/home/user/mcutk_workspace"
    (fun rc => Mcux.parse_build_result rc (some "build.log") (fun _ => none))
    [("Debug", "Debug/hello_world.axf")] "Debug" "/sdk/hello_world" none
    ⟨3, "", false⟩ fsNone fsNone rfl (by decide) (by decide)).1

/-! ## Claim C8 -/

/-- C8 counterexample: a passing build whose resolved output location does
not exist returns kind Passed with a logged warning, but the artifact field
is not absent: it still holds the declared relative output path. -/
theorem c8_counterexample :
    build "mcux" "/home/user/mcutk_workspace"
        (fun rc => Mcux.parse_build_result rc (some "build.log") (fun _ => none))
        [("Debug", "Debug/hello_world.axf")] "Debug" "/sdk/hello_world" none
        ⟨0, "", false⟩ fsNone
      = Except.ok (⟨Result.PASSED, some "Debug/hello_world.axf"⟩,
          ["output is not exists: [/home/user/mcutk_workspace/mcux/Debug/hello_world.axf]"]) ∧
    some "Debug/hello_world.axf" ≠ (none : Option String) := by
  constructor
  · rfl
  · decide

/-- C8 (amended): a passing or warnings build whose declared output
location, resolved against the workspace or the project root, exists
neither as a file nor as a directory yields an ok BuildResult (no
exception) whose kind is unchanged, whose artifact field still holds the
declared relative output path (not an absent artifact), together with a
logged warning naming the missing location. -/
theorem c8_missing_output_warns
    (tc_name default_workspace : String) (parse_result : Int → BuildResult)
    (targetsinfo : List (String × String)) (target prjdir out : String)
    (workspace_arg : Option String) (proc : ProcOutcome) (fs : FS)
    (hto : proc.timed_out = false)
    (hres : (parse_result proc.returncode).result = Result.PASSED ∨
            (parse_result proc.returncode).result = Result.Warnings)
    (hout : dictGet targetsinfo target = some out)
    (hnf : fs.isfile (resolve_output_abs tc_name
        (resolve_workspace tc_name default_workspace workspace_arg) prjdir out) = false)
    (hnd : fs.path_exists (resolve_output_abs tc_name
        (resolve_workspace tc_name default_workspace workspace_arg) prjdir out) = false) :
    build tc_name default_workspace parse_result targetsinfo target prjdir
        workspace_arg proc fs
      = Except.ok (⟨(parse_result proc.returncode).result, some out⟩,
          ["output is not exists: [" ++ resolve_output_abs tc_name
            (resolve_workspace tc_name default_workspace workspace_arg) prjdir out
            ++ "]"]) := by
  have hcond : ¬ ((parse_result proc.returncode).result ≠ Result.PASSED ∧
      (parse_result proc.returncode).result ≠ Result.Warnings) := by
    rcases hres with h | h <;> simp [h]
  simp only [build, run_command, hto, Bool.false_and, Bool.false_eq_true, if_false,
    hout]
  rw [if_neg hcond]
  simp only [hnf, hnd, Bool.false_eq_true, if_false, Bool.not_false, if_true]

/-- Witness for c8_missing_output_warns at a concrete passing build with no
output directory on disk. -/
theorem c8_missing_output_warns_witness :
    build "mcux" "/home/user/mcutk_workspace"
        (fun rc => Mcux.parse_build_result rc (some "build.log") (fun _ => none))
        [("Debug", "Debug/hello_world.axf")] "Debug" "/sdk/hello_world" none
        ⟨0, "", false⟩ fsNone
      = Except.ok
          (⟨(Mcux.parse_build_result 0 (some "build.log") (fun _ => none)).result,
            some "Debug/hello_world.axf"⟩,
           ["output is not exists: [" ++ resolve_output_abs "mcux"
             (resolve_workspace "mcux" "/home/user/mcutk_workspace" none)
             "/sdk/hello_world" "Debug/hello_world.axf" ++ "]"]) :=
  c8_missing_output_warns "mcux" "/home/user/mcutk_workspace"
    (fun rc => Mcux.parse_build_result rc (some "build.log") (fun _ => none))
    [("Debug", "Debug/hello_world.axf")] "Debug" "/sdk/hello_world"
    "Debug/hello_world.axf" none ⟨0, "", false⟩ fsNone rfl
    (Or.inl (by decide)) rfl rfl rfl

/-! ## Claim C5 -/

/-- A manifest (format version below 3.1) whose single example declares the
toolchain attribute mcuxpresso armgcc: the string mcux occurs in it as a
substring although mcux is not one of the space-separated toolchains. -/
def mfSubstring : SDKManifest :=
  ⟨"3.0", ["evkboard"], none,
   [⟨"evkboard_demo", "demo", "boards/evkboard/demos/demo", "demos",
     "mcuxpresso armgcc", none, "demo.xml"⟩]⟩

/-- C5 counterexample: when the owning manifest cannot be located the
construction raises the parse error, not the not-found error the claim
names; and enablement is substring containment on the toolchain attribute,
not membership in the space-separated toolchain list, as the mcuxpresso
attribute shows. -/
theorem c5_counterexample :
    McuxPrj.project_init_package ⟨true, true, some "evkboard_demo"⟩ none none
      = Except.error (McuxPrj.PrjError.projectParserError "Unable to find SDK Manifest!") ∧
    (∀ msg, McuxPrj.project_init_package ⟨true, true, some "evkboard_demo"⟩ none none
      ≠ Except.error (McuxPrj.PrjError.projectNotFound msg)) ∧
    McuxPrj.is_enabled true mfSubstring "evkboard_demo" = true ∧
    ¬ ("mcux" ∈ pySplit "mcuxpresso armgcc") := by
  have h1 : McuxPrj.project_init_package ⟨true, true, some "evkboard_demo"⟩ none none
      = Except.error (McuxPrj.PrjError.projectParserError "Unable to find SDK Manifest!") := by
    rfl
  refine ⟨h1, fun msg h => ?_, by decide, by decide⟩
  rw [h1] at h
  simp at h

/-- C5 (amended): for a vendor package project with a well-formed example
definition, construction raises the parser error (not a not-found error)
when no manifest can be located, raises the not-found error when a located
manifest does not enable the example, and succeeds otherwise; enablement
holds exactly when the example is present in the manifest and either the
manifest format version is 3.1 or the string mcux occurs as a substring of
the example toolchain attribute. -/
theorem c5_package_construction (x : McuxPrj.PackageXmlData) (eid : String)
    (m : SDKManifest) (parents : Option SDKManifest)
    (hpo : x.parse_ok = true) (hhe : x.has_example_node = true)
    (hid : x.example_id = some eid) (hne : eid ≠ "") :
    (McuxPrj.project_init_package x none none
      = Except.error (McuxPrj.PrjError.projectParserError "Unable to find SDK Manifest!")) ∧
    (McuxPrj.is_enabled true m eid = false →
      McuxPrj.project_init_package x (some m) parents
        = Except.error (McuxPrj.PrjError.projectNotFound "Not enabled in SDK Manifest")) ∧
    (McuxPrj.is_enabled true m eid = true →
      McuxPrj.project_init_package x (some m) parents = Except.ok (eid, m)) ∧
    (McuxPrj.is_enabled true m eid = true ↔
      ∃ info, find_example m eid = some info ∧
        (m.format_version = "3.1" ∨ pyIn "mcux" info.toolchain = true)) := by
  refine ⟨?_, ?_, ?_, ?_⟩
  · simp [McuxPrj.project_init_package, McuxPrj.load_from_sdk_package, hpo, hhe, hid, hne]
  · intro hdis
    simp [McuxPrj.project_init_package, McuxPrj.load_from_sdk_package, hpo, hhe, hid,
      hne, hdis]
  · intro hen
    simp [McuxPrj.project_init_package, McuxPrj.load_from_sdk_package, hpo, hhe, hid,
      hne, hen]
  · unfold McuxPrj.is_enabled
    cases h : find_example m eid with
    | none => simp [h]
    | some info =>
      by_cases h31 : m.format_version = "3.1"
      · simp [h, h31]
      · simp [h, h31]

/-- Witness for c5_package_construction: the missing-manifest error, the
disabled case on an armgcc-only example, and the enabled case on the
substring manifest. -/
theorem c5_package_construction_witness :
    McuxPrj.project_init_package ⟨true, true, some "evkboard_blinky"⟩ none none
      = Except.error (McuxPrj.PrjError.projectParserError "Unable to find SDK Manifest!") ∧
    McuxPrj.project_init_package ⟨true, true, some "evkboard_demo"⟩ (some mfSubstring) none
      = Except.ok ("evkboard_demo", mfSubstring) := by
  constructor
  · exact (c5_package_construction ⟨true, true, some "evkboard_blinky"⟩ "evkboard_blinky"
      mfSubstring none rfl rfl rfl (by decide)).1
  · exact (c5_package_construction ⟨true, true, some "evkboard_demo"⟩ "evkboard_demo"
      mfSubstring none rfl rfl rfl (by decide)).2.2.1 (by decide)

/-! ## Claim C6 -/

/-- Setting a key absent from the dictionary appends the binding. -/
theorem dictSet_append_of_not_mem (d : List (String × String)) (k v : String)
    (h : ∀ p ∈ d, p.1 ≠ k) : dictSet d k v = d ++ [(k, v)] := by
  unfold dictSet
  rw [if_neg]
  intro hc
  obtain ⟨p, hp, hpk⟩ := List.any_eq_true.mp hc
  exact h p hp (by simpa using hpk)

/-- Looking up a binding of a dictionary whose keys are pairwise distinct
returns its value. -/
theorem dictGet_of_mem_pairwise :
    ∀ (d : List (String × String)) (k v : String), (k, v) ∈ d →
      d.Pairwise (fun a b => a.1 ≠ b.1) → dictGet d k = some v
  | [], k, v, hmem, _ => by simp at hmem
  | p :: t, k, v, hmem, hpw => by
    obtain ⟨hhead, htail⟩ := List.pairwise_cons.mp hpw
    rcases List.mem_cons.mp hmem with rfl | hmem2
    · simp [dictGet, List.find?_cons]
    · have hne : p.1 ≠ k := by
        have := hhead (k, v) hmem2
        simpa using this
      have ih := dictGet_of_mem_pairwise t k v hmem2 htail
      have hfalse : (decide (p.1 = k)) = false := by simpa using hne
      simp only [dictGet, List.find?_cons, hfalse] at ih ⊢
      exact ih

/-- The folding loop of parse_cproject over fresh, pairwise-distinct
configuration names appends one binding per node. -/
theorem parse_cproject_foldl (project_name : String) :
    ∀ (nodes : List Eclipse.ConfigurationNode) (acc : List (String × String)),
      (∀ n ∈ nodes, ∀ p ∈ acc, p.1 ≠ pyStrip n.name) →
      nodes.Pairwise (fun a b => pyStrip a.name ≠ pyStrip b.name) →
      nodes.foldl (fun targets per_node => dictSet targets (pyStrip per_node.name)
          (Eclipse.config_output project_name per_node)) acc
        = acc ++ nodes.map
            (fun n => (pyStrip n.name, Eclipse.config_output project_name n))
  | [], acc, _, _ => by simp
  | n :: t, acc, hfresh, hpw => by
    obtain ⟨hhead, htail⟩ := List.pairwise_cons.mp hpw
    rw [List.foldl_cons]
    rw [dictSet_append_of_not_mem acc (pyStrip n.name)
      (Eclipse.config_output project_name n)
      (fun p hp => hfresh n (List.mem_cons_self n t) p hp)]
    rw [parse_cproject_foldl project_name t
      (acc ++ [(pyStrip n.name, Eclipse.config_output project_name n)])
      (by
        intro n2 hn2 p hp
        rcases List.mem_append.mp hp with hp1 | hp2
        · exact hfresh n2 (List.mem_cons_of_mem n hn2) p hp1
        · rw [List.mem_singleton] at hp2
          subst hp2
          exact hhead n2 hn2)
      htail]
    simp

/-- A configuration node with no buildArtefactType attribute: the parser
xpath skips it. -/
def cfgNoArtefact : Eclipse.ConfigurationNode :=
  ⟨none, "Debug", some "axf", "hello_world", none⟩

/-- A Debug configuration producing hello_world.axf. -/
def cfgDebugAxf : Eclipse.ConfigurationNode :=
  ⟨some "org.eclipse.cdt.build.core.buildArtefactType.exe", "Debug", some "axf",
   "hello_world", none⟩

/-- A second configuration that reuses the Debug name. -/
def cfgDebugElf : Eclipse.ConfigurationNode :=
  ⟨some "org.eclipse.cdt.build.core.buildArtefactType.exe", "Debug", some "elf",
   "hello_world2", none⟩

/-- The configuration of the end-to-end scenario: Debug, artifact
hello_world, extension axf, build path of a workspace variable reference
followed by Debug. -/
def cfgScenario : Eclipse.ConfigurationNode :=
  ⟨some "org.eclipse.cdt.build.core.buildArtefactType.exe", "Debug", some "axf",
   "hello_world", some "$\x7bworkspace_loc\x7d/Debug"⟩

/-- C6 (amended): for a build-configuration document whose configuration
nodes all carry a buildArtefactType attribute and have pairwise-distinct
stripped names, parsing yields exactly one target per node; each target
name maps to the non-empty relative path of config_output, that is output
directory, slash, artifact base name (the project name when the artifact
attribute is the literal placeholder), dot, extension, with any leading
variable-reference portion stripped from the builder build path; and the
end-to-end scenario (a .project naming hello_world, one Debug configuration
with artifact hello_world, extension axf, build path of a workspace
variable reference followed by Debug) yields the single target Debug mapped
to Debug/hello_world.axf. -/
theorem c6_parse_cproject (project_name : String)
    (nodes : List Eclipse.ConfigurationNode)
    (hall : ∀ n ∈ nodes, n.buildArtefactType.isSome = true)
    (hdist : nodes.Pairwise (fun a b => pyStrip a.name ≠ pyStrip b.name)) :
    (Eclipse.parse_cproject project_name nodes).length = nodes.length ∧
    (∀ n ∈ nodes,
      dictGet (Eclipse.parse_cproject project_name nodes) (pyStrip n.name)
        = some (Eclipse.config_output project_name n) ∧
      Eclipse.config_output project_name n ≠ "") ∧
    (Eclipse.parse "hello_world" [cfgScenario]
        = ("hello_world", [("Debug", "Debug/hello_world.axf")]) ∧
      (Eclipse.parse_cproject "hello_world" [cfgScenario]).map Prod.fst = ["Debug"] ∧
      dictGet (Eclipse.parse_cproject "hello_world" [cfgScenario]) "Debug"
        = some "Debug/hello_world.axf") := by
  have hfilter : nodes.filter (fun n => n.buildArtefactType.isSome) = nodes :=
    List.filter_eq_self.mpr (fun n hn => by simpa using hall n hn)
  have hfold :
      Eclipse.parse_cproject project_name nodes
        = nodes.map (fun n => (pyStrip n.name, Eclipse.config_output project_name n)) := by
    unfold Eclipse.parse_cproject
    rw [hfilter]
    rw [parse_cproject_foldl project_name nodes [] (by intro n _ p hp; simp at hp) hdist]
    simp
  refine ⟨by rw [hfold]; simp, fun n hn => ⟨?_, ?_⟩, rfl, rfl, rfl⟩
  · rw [hfold]
    apply dictGet_of_mem_pairwise
    · exact List.mem_map_of_mem _ hn
    · exact List.pairwise_map.mpr hdist
  · unfold Eclipse.config_output
    intro h
    have hlen := congrArg String.length h
    have hslash : ("/" : String).length = 1 := rfl
    have hempty : ("" : String).length = 0 := rfl
    simp only [String.length_append, hslash, hempty] at hlen
    omega

/-- C6 counterexample: a document with one configuration node yields zero
targets when the node lacks the buildArtefactType attribute, and a document
with two configuration nodes sharing one name yields a single target, so N
configuration nodes do not always yield exactly N targets. -/
theorem c6_counterexample :
    ([cfgNoArtefact].length = 1 ∧
      (Eclipse.parse_cproject "hello_world" [cfgNoArtefact]).length = 0) ∧
    ([cfgDebugAxf, cfgDebugElf].length = 2 ∧
      (Eclipse.parse_cproject "hello_world" [cfgDebugAxf, cfgDebugElf]).length = 1) := by
  refine ⟨⟨rfl, by decide⟩, ⟨rfl, by decide⟩⟩

/-- Witness for c6_parse_cproject at the single-configuration scenario
document. -/
theorem c6_parse_cproject_witness :
    (Eclipse.parse_cproject "hello_world" [cfgScenario]).length = [cfgScenario].length ∧
    dictGet (Eclipse.parse_cproject "hello_world" [cfgScenario]) (pyStrip cfgScenario.name)
      = some (Eclipse.config_output "hello_world" cfgScenario) := by
  have h := c6_parse_cproject "hello_world" [cfgScenario] (by decide) (by simp)
  exact ⟨h.1, (h.2.1 cfgScenario (by simp)).1⟩

/-! ## Claim C10 -/

/-- A successful attempt of the board-name pattern requires the literal
boards section to occur inside the text. -/
theorem tryMatchBoards_contains_boards (l : List Char) (cap : String) (rest : List Char)
    (h : tryMatchBoards l = some (cap, rest)) : boardsPattern <:+: l := by
  by_cases h1 : (l.takeWhile isWordChar).isEmpty
  · simp [tryMatchBoards, h1] at h
  · by_cases h2 : List.isPrefixOf boardsPattern (l.drop (l.takeWhile isWordChar).length)
    · have hpre : boardsPattern <+: l.drop (l.takeWhile isWordChar).length :=
        List.isPrefixOf_iff_prefix.mp h2
      exact hpre.isInfix.trans (List.drop_suffix _ l).isInfix
    · simp [tryMatchBoards, h1, h2] at h

/-- The one-step unfolding of the board-name scan at positive fuel. -/
theorem findBoardsAux_succ (n : Nat) (l : List Char) :
    findBoardsAux (n + 1) l =
      match tryMatchBoards l with
      | some (cap, rest) => cap :: findBoardsAux n rest
      | none =>
        match l with
        | [] => []
        | _ :: t => findBoardsAux n t := rfl

/-- The board-name scan captures nothing when the text does not contain the
literal boards section. -/
theorem findBoardsAux_nil (fuel : Nat) :
    ∀ l : List Char, ¬ (boardsPattern <:+: l) → findBoardsAux fuel l = [] := by
  induction fuel with
  | zero => intro l _; rfl
  | succ n ih =>
    intro l hninf
    rw [findBoardsAux_succ]
    cases htm : tryMatchBoards l with
    | some pr => exact absurd (tryMatchBoards_contains_boards l pr.1 pr.2 htm) hninf
    | none =>
      cases l with
      | nil => rfl
      | cons c t => exact ih t (fun hi => hninf (List.infix_cons hi))

/-- C10: a glob-accepted project file whose normalized path has no boards
directory section makes the board-name lookup raise IndexError, which
propagates out of the single-file branch of fromdir (only ProjectNotFound
is swallowed there) but is silently swallowed by the directory scan, so the
project never appears in scan results; and when the pattern does match, the
instance carries the last captured board name. -/
theorem c10_board_name_derivation (path : String)
    (hnb : ¬ (boardsPattern <:+: (normSlashes path).data)) :
    get_instance none true path = Except.error PyExc.indexError ∧
    fromdir_single ⟨path, true, none⟩ = Except.error PyExc.indexError ∧
    (∀ cs, fromdir_scan (cs ++ [⟨path, true, none⟩]) = fromdir_scan cs) ∧
    (∀ path2 b, (findallBoards (normSlashes path2)).getLast? = some b →
      get_instance none true path2 = Except.ok (some ⟨path2, b⟩)) := by
  have hempty : findallBoards (normSlashes path) = [] :=
    findBoardsAux_nil _ _ hnb
  have h1 : get_instance none true path = Except.error PyExc.indexError := by
    simp [get_instance, hempty]
  refine ⟨h1, ?_, ?_, ?_⟩
  · simp [fromdir_single, h1]
  · intro cs
    unfold fromdir_scan
    rw [List.foldl_append]
    simp [h1]
  · intro path2 b hb
    simp [get_instance, hb]

/-- Witness for c10_board_name_derivation: a path without a boards
directory raises IndexError through the single-file branch, while a boards
path derives the last captured board name. -/
theorem c10_board_name_derivation_witness :
    fromdir_single ⟨"C:\\mcux_sdk\\examples\\demo\\hello_world.xml", true, none⟩
      = Except.error PyExc.indexError ∧
    get_instance none true
        "/sdk/boards/evkmimxrt1170/demo_apps/hello_world/hello_world.xml"
      = Except.ok (some
          ⟨"/sdk/boards/evkmimxrt1170/demo_apps/hello_world/hello_world.xml",
           "evkmimxrt1170"⟩) := by
  have h := c10_board_name_derivation "C:\\mcux_sdk\\examples\\demo\\hello_world.xml"
    (by decide)
  exact ⟨h.2.1, h.2.2.2 _ _ (by decide)⟩
